import Mathlib

/-!
Shallow embedding of the greybus slice SPI datalink driver
(`nuttx/drivers/greybus/slice/datalink-spi.c`) and verification of its
specification.  The driver state `struct slice_spi_dl_s` is modelled as a
Lean structure; the interrupt-driven entry points `setup_exchange`,
`txn_finished_cb`, `attach_cb` and `queue_data` are modelled as pure state
transformers.  Machine integers are `Nat` with explicit wraparound at
`2 ^ 64` where the C code uses `size_t` arithmetic that can underflow.
-/

namespace SliceSpi

/-- Size of payload of an individual SPI packet, in bytes (from the source). -/
def SLICE_SPI_MSG_PAYLOAD_SZ : Nat := 32

/-- Header bit 7: frame carries a real payload. -/
def HDR_BIT_VALID : Nat := 128

/-- Header bit 6: further fragments follow. -/
def HDR_BIT_MORE : Nat := 64

/-- errno value E2BIG. -/
def E2BIG : Int := 7

/-- errno value ENOMEM. -/
def ENOMEM : Int := 12

/-- Modulus of `size_t` arithmetic (64-bit platform). -/
def SIZE_MOD : Nat := 2 ^ 64

/-- C `size_t` subtraction `a - b` with wraparound, for `b ≤ 2 ^ 64`. -/
def subSize (a b : Nat) : Nat := (a + (SIZE_MOD - b)) % SIZE_MOD

/-- Wire frame `struct slice_spi_msg`: one header byte, a fixed 32-byte
payload, and a placeholder crc16. -/
structure slice_spi_msg where
  hdr_bits : Nat
  data : List Nat
  crc16 : Nat
deriving DecidableEq

/-- Truthiness of `m->hdr_bits & HDR_BIT_VALID`. -/
def msg_valid (m : slice_spi_msg) : Bool := m.hdr_bits &&& HDR_BIT_VALID != 0

/-- Truthiness of `m->hdr_bits & HDR_BIT_MORE`. -/
def msg_more (m : slice_spi_msg) : Bool := m.hdr_bits &&& HDR_BIT_MORE != 0

/-- Driver state `struct slice_spi_dl_s`, together with the two handshake
GPIO levels and ghost fields observing the externally visible effects:
`host_int` is the last value passed to `slice_host_int_set`, and
`exch_count` counts the `SPI_EXCHANGE` calls issued. -/
structure slice_spi_dl_s where
  tx_fifo : List slice_spi_msg
  tx_buf : Option slice_spi_msg
  rcvd_payload : List Nat
  rcvd_payload_idx : Nat
  rdy_n : Bool
  wake_n : Bool
  host_int : Bool
  exch_count : Nat
deriving DecidableEq

/-- Modelled from the spec: `SLICE_DL_PAYLOAD_MAX_SZ` is defined in
`datalink.h`, which is not part of the sources; the spec only says it is the
maximum message size (`MAX_MESSAGE_SZ`).  It is therefore kept as an explicit
parameter `maxSz` of every definition that reads it. -/
def initState (maxSz : Nat) : slice_spi_dl_s :=
  { tx_fifo := []
    tx_buf := none
    rcvd_payload := List.replicate maxSz 0
    rcvd_payload_idx := 0
    rdy_n := true
    wake_n := true
    host_int := false
    exch_count := 0 }

/-- Body of `setup_exchange` up to the `out:` label: bail out if the ready
line is already asserted (low) or the wake line is not asserted (high);
otherwise pop the FIFO head (or use the dummy buffer), issue `SPI_EXCHANGE`
and assert ready (drive the line low). -/
def setup_exchange_core (s : slice_spi_dl_s) : slice_spi_dl_s :=
  if s.rdy_n = false then s
  else if s.wake_n = true then s
  else
    match s.tx_fifo with
    | [] =>
        { s with exch_count := s.exch_count + 1, rdy_n := false }
    | f :: rest =>
        { s with tx_fifo := rest, tx_buf := some f,
                 exch_count := s.exch_count + 1, rdy_n := false }

/-- `setup_exchange`: the core body followed by the `out:` label, which
always calls `slice_host_int_set(priv->tx_buf != NULL)`. -/
def setup_exchange (s : slice_spi_dl_s) : slice_spi_dl_s :=
  { setup_exchange_core s with host_int := (setup_exchange_core s).tx_buf.isSome }

/-- `attach_cb`: on detach, cancel the SPI transaction and free every queued
node; on attach, do nothing.  Only `tx_fifo` is touched. -/
def attach_cb (s : slice_spi_dl_s) (attached : Bool) : slice_spi_dl_s :=
  if attached then s else { s with tx_fifo := [] }

/-- `memcpy(&rcvd_payload[idx], data, 32)` on the reassembly buffer. -/
def writeAt (buf : List Nat) (idx : Nat) (d : List Nat) : List Nat :=
  buf.take idx ++ d ++ buf.drop (idx + d.length)

/-- `memset(rcvd_payload, 0, SLICE_SPI_MSG_PAYLOAD_SZ)`: clears only the
first 32 bytes of the reassembly buffer. -/
def memset32 (buf : List Nat) : List Nat :=
  List.replicate SLICE_SPI_MSG_PAYLOAD_SZ 0 ++ buf.drop SLICE_SPI_MSG_PAYLOAD_SZ

/-- Start of `txn_finished_cb`: deassert ready (drive high) and free the
just-transmitted buffer. -/
def txn_start (s : slice_spi_dl_s) : slice_spi_dl_s :=
  { s with rdy_n := true, tx_buf := none }

/-- The accumulation step of `txn_finished_cb`: copy the 32-byte payload at
the cursor and advance the cursor. -/
def txn_accept (s : slice_spi_dl_s) (m : slice_spi_msg) : slice_spi_dl_s :=
  { s with rcvd_payload := writeAt s.rcvd_payload s.rcvd_payload_idx m.data,
           rcvd_payload_idx := s.rcvd_payload_idx + SLICE_SPI_MSG_PAYLOAD_SZ }

/-- The reset after delivery: `memset` of the first 32 bytes and cursor back
to zero. -/
def txn_reset (s : slice_spi_dl_s) : slice_spi_dl_s :=
  { s with rcvd_payload := memset32 s.rcvd_payload, rcvd_payload_idx := 0 }

/-- The buffer handed to `priv->cb->recv`: the first `rcvd_payload_idx`
bytes of the reassembly buffer. -/
def deliveredOf (s : slice_spi_dl_s) : List Nat :=
  s.rcvd_payload.take s.rcvd_payload_idx

/-- `txn_finished_cb`, parameterised by `SLICE_DL_PAYLOAD_MAX_SZ` and the
frame found in `rx_buf`.  Returns the new state and the message delivered to
`priv->cb->recv`, if any.  Every path falls through to `setup_exchange`. -/
def txn_finished_cb (maxSz : Nat) (s : slice_spi_dl_s) (m : slice_spi_msg) :
    slice_spi_dl_s × Option (List Nat) :=
  if msg_valid m = false then
    (setup_exchange (txn_start s), none)
  else if maxSz ≤ s.rcvd_payload_idx then
    (setup_exchange (txn_start s), none)
  else if msg_more m = true then
    (setup_exchange (txn_accept (txn_start s) m), none)
  else
    (setup_exchange (txn_reset (txn_accept (txn_start s) m)),
     some (deliveredOf (txn_accept (txn_start s) m)))

/-- One frame built inside the `queue_data` loop: `zalloc` zeroes the
struct, then `VALID` is set, `MORE` is set iff `remaining > 32`, and
`memcpy(m->data, buf, MIN(len, 32))` copies from the START of `buf` (the
source never advances the pointer). -/
def mkMsg (buf : List Nat) (len remaining : Nat) : slice_spi_msg :=
  { hdr_bits := HDR_BIT_VALID |||
      (if SLICE_SPI_MSG_PAYLOAD_SZ < remaining then HDR_BIT_MORE else 0)
    data := buf.take (min len SLICE_SPI_MSG_PAYLOAD_SZ) ++
      List.replicate (SLICE_SPI_MSG_PAYLOAD_SZ - min len SLICE_SPI_MSG_PAYLOAD_SZ) 0
    crc16 := 0 }

/-- The `while (remaining > 0)` loop of `queue_data`.  `allocs` is the
allocation oracle: one `(zalloc ok, malloc ok)` pair per iteration; an
exhausted oracle means allocation failure.  `remaining -= MIN(len, 32)`
underflows exactly as the `size_t` arithmetic in the source. -/
def queue_data_loop (buf : List Nat) (len : Nat) :
    List (Bool × Bool) → Nat → List slice_spi_msg → Int × List slice_spi_msg
  | allocs, remaining, fifo =>
    if remaining = 0 then
      (0, fifo)
    else
      match allocs with
      | [] => (-ENOMEM, fifo)
      | (zok, mok) :: rest =>
        if zok && mok then
          queue_data_loop buf len rest
            (subSize remaining (min len SLICE_SPI_MSG_PAYLOAD_SZ))
            (fifo ++ [mkMsg buf len remaining])
        else
          (-ENOMEM, fifo)

/-- `queue_data`: reject messages above `SLICE_DL_PAYLOAD_MAX_SZ` with
`-E2BIG`, run the fragmentation loop, and on success fall through to
`setup_exchange`.  Error returns leave the loop early without reaching
`setup_exchange`. -/
def queue_data (maxSz : Nat) (allocs : List (Bool × Bool)) (s : slice_spi_dl_s)
    (buf : List Nat) (len : Nat) : Int × slice_spi_dl_s :=
  if maxSz < len then
    (-E2BIG, s)
  else if (queue_data_loop buf len allocs len s.tx_fifo).1 = 0 then
    (0, setup_exchange { s with tx_fifo := (queue_data_loop buf len allocs len s.tx_fifo).2 })
  else
    ((queue_data_loop buf len allocs len s.tx_fifo).1,
     { s with tx_fifo := (queue_data_loop buf len allocs len s.tx_fifo).2 })

/-- Feed a sequence of received frames to `txn_finished_cb`, collecting the
messages delivered upward. -/
def runFrames (maxSz : Nat) : slice_spi_dl_s → List slice_spi_msg →
    slice_spi_dl_s × List (List Nat)
  | s, [] => (s, [])
  | s, m :: ms =>
    ((runFrames maxSz (txn_finished_cb maxSz s m).1 ms).1,
     (txn_finished_cb maxSz s m).2.toList ++
       (runFrames maxSz (txn_finished_cb maxSz s m).1 ms).2)

/-- The scheduler step relation: the triggers that can fire on the driver
state.  `wake_line` is the base changing the wake GPIO; `wake_isr` is the
falling-edge interrupt handler; `send` is a network-layer `queue_data`
call; `txn` is the SPI completion callback (only possible while an exchange
is armed, with a physically 32-byte payload); `attach` is the attach/detach
notification. -/
inductive Step (maxSz : Nat) : slice_spi_dl_s → slice_spi_dl_s → Prop
  | wake_line (s : slice_spi_dl_s) (b : Bool) : Step maxSz s { s with wake_n := b }
  | wake_isr (s : slice_spi_dl_s) : Step maxSz s (setup_exchange s)
  | send (s : slice_spi_dl_s) (allocs : List (Bool × Bool)) (buf : List Nat)
      (len : Nat) : Step maxSz s (queue_data maxSz allocs s buf len).2
  | txn (s : slice_spi_dl_s) (m : slice_spi_msg) (hr : s.rdy_n = false)
      (hm : m.data.length = SLICE_SPI_MSG_PAYLOAD_SZ) :
      Step maxSz s (txn_finished_cb maxSz s m).1
  | attach (s : slice_spi_dl_s) (b : Bool) : Step maxSz s (attach_cb s b)

/-- States reachable from the freshly initialised driver. -/
def Reachable (maxSz : Nat) (s : slice_spi_dl_s) : Prop :=
  Relation.ReflTransGen (Step maxSz) (initState maxSz) s

/-- A convenient concrete frame: valid, with the given `more` bit, payload
filled with byte `b`. -/
def mkFrame (more : Bool) (b : Nat) : slice_spi_msg :=
  { hdr_bits := if more then HDR_BIT_VALID + HDR_BIT_MORE else HDR_BIT_VALID
    data := List.replicate SLICE_SPI_MSG_PAYLOAD_SZ b
    crc16 := 0 }

end SliceSpi

namespace SliceSpi

/-! ### Helper lemmas -/

theorem setup_exchange_core_rcvd (s : slice_spi_dl_s) :
    (setup_exchange_core s).rcvd_payload_idx = s.rcvd_payload_idx ∧
    (setup_exchange_core s).rcvd_payload = s.rcvd_payload := by
  unfold setup_exchange_core
  split
  · exact ⟨rfl, rfl⟩
  split
  · exact ⟨rfl, rfl⟩
  split <;> exact ⟨rfl, rfl⟩

theorem setup_exchange_rcvd_idx (s : slice_spi_dl_s) :
    (setup_exchange s).rcvd_payload_idx = s.rcvd_payload_idx :=
  (setup_exchange_core_rcvd s).1

theorem setup_exchange_rcvd_payload (s : slice_spi_dl_s) :
    (setup_exchange s).rcvd_payload = s.rcvd_payload :=
  (setup_exchange_core_rcvd s).2

theorem setup_exchange_busy (s : slice_spi_dl_s) (h : s.rdy_n = false) :
    setup_exchange s = { s with host_int := s.tx_buf.isSome } := by
  unfold setup_exchange setup_exchange_core
  rw [if_pos h]

theorem queue_data_loop_extends (buf : List Nat) (len : Nat)
    (allocs : List (Bool × Bool)) :
    ∀ remaining fifo, ∃ extra,
      (queue_data_loop buf len allocs remaining fifo).2 = fifo ++ extra := by
  induction allocs with
  | nil =>
    intro remaining fifo
    unfold queue_data_loop
    split
    · exact ⟨[], (List.append_nil fifo).symm⟩
    · exact ⟨[], (List.append_nil fifo).symm⟩
  | cons p rest ih =>
    intro remaining fifo
    unfold queue_data_loop
    split
    · exact ⟨[], (List.append_nil fifo).symm⟩
    obtain ⟨zok, mok⟩ := p
    dsimp only
    split
    · obtain ⟨extra, hextra⟩ := ih (subSize remaining (min len SLICE_SPI_MSG_PAYLOAD_SZ))
        (fifo ++ [mkMsg buf len remaining])
      exact ⟨[mkMsg buf len remaining] ++ extra, by rw [hextra, List.append_assoc]⟩
    · exact ⟨[], (List.append_nil fifo).symm⟩

theorem queue_data_loop_result (buf : List Nat) (len : Nat)
    (allocs : List (Bool × Bool)) :
    ∀ remaining fifo, (queue_data_loop buf len allocs remaining fifo).1 = 0 ∨
      (queue_data_loop buf len allocs remaining fifo).1 = -ENOMEM := by
  induction allocs with
  | nil =>
    intro remaining fifo
    unfold queue_data_loop
    split
    · exact Or.inl rfl
    · exact Or.inr rfl
  | cons p rest ih =>
    intro remaining fifo
    unfold queue_data_loop
    split
    · exact Or.inl rfl
    obtain ⟨zok, mok⟩ := p
    dsimp only
    split
    · exact ih _ _
    · exact Or.inr rfl

theorem queue_data_rcvd_idx (maxSz : Nat) (allocs : List (Bool × Bool))
    (s : slice_spi_dl_s) (buf : List Nat) (len : Nat) :
    (queue_data maxSz allocs s buf len).2.rcvd_payload_idx = s.rcvd_payload_idx := by
  unfold queue_data
  split
  · rfl
  split
  · rw [setup_exchange_rcvd_idx]
  · rfl

theorem attach_cb_rcvd_idx (s : slice_spi_dl_s) (b : Bool) :
    (attach_cb s b).rcvd_payload_idx = s.rcvd_payload_idx := by
  unfold attach_cb
  split <;> rfl

theorem queue_data_loop_zero_rem (buf : List Nat) (len : Nat)
    (allocs : List (Bool × Bool)) (fifo : List slice_spi_msg) :
    queue_data_loop buf len allocs 0 fifo = (0, fifo) := by
  unfold queue_data_loop
  rw [if_pos rfl]

theorem subSize_mod32 (a : Nat) : subSize a 32 % 32 = a % 32 := by
  unfold subSize SIZE_MOD
  rw [Nat.mod_mod_of_dvd _ (by norm_num : (32:Nat) ∣ 2 ^ 64)]
  omega

theorem queue_data_loop_never_zero (buf : List Nat) (len : Nat)
    (hlen : 32 ≤ len) (allocs : List (Bool × Bool)) :
    ∀ remaining fifo, remaining % 32 ≠ 0 →
      (queue_data_loop buf len allocs remaining fifo).1 ≠ 0 := by
  induction allocs with
  | nil =>
    intro remaining fifo hr
    unfold queue_data_loop
    rw [if_neg (by omega)]
    norm_num [ENOMEM]
  | cons p rest ih =>
    intro remaining fifo hr
    unfold queue_data_loop
    rw [if_neg (by omega)]
    obtain ⟨zok, mok⟩ := p
    dsimp only
    split
    · have hmin : min len SLICE_SPI_MSG_PAYLOAD_SZ = 32 := by
        unfold SLICE_SPI_MSG_PAYLOAD_SZ
        omega
      rw [hmin]
      exact ih _ _ (by rw [subSize_mod32]; exact hr)
    · norm_num [ENOMEM]

/-! ### Claim theorems: fragmentation (C1, C2, C4, C9) -/

/-- C1: fragmenting a message and reassembling the frames is claimed to give
back the message (zero-padded to a multiple of 32 and truncated to its
length).  The code refutes this: `memcpy(m->data, buf, MIN(len, 32))` copies
every fragment from the start of the buffer, so for the 64-byte message
`0,1,...,63` the two produced frames both carry bytes `0..31`, and the
delivered buffer is `0..31,0..31`, not the original message. -/
theorem fragment_reassemble_mismatch :
    (queue_data 64 [(true, true), (true, true)] (initState 64) (List.range 64) 64).1 = 0 ∧
    (queue_data 64 [(true, true), (true, true)] (initState 64)
      (List.range 64) 64).2.tx_fifo.length = 2 ∧
    (runFrames 64 (initState 64)
      (queue_data 64 [(true, true), (true, true)] (initState 64)
        (List.range 64) 64).2.tx_fifo).2 = [List.range 32 ++ List.range 32] ∧
    List.range 32 ++ List.range 32 ≠ List.range 64 := by
  refine ⟨by decide, by decide, by decide, by decide⟩

/-- C2: `queue_data` is claimed to append exactly `ceil(L / 32)` frames with
`more = true` on all but the last.  The code refutes this for `L = 70`:
`remaining -= MIN(len, 32)` subtracts 32 from the leftover 6 and the
`size_t` value wraps around, so the loop can never reach `remaining == 0`
(first conjunct: no allocation oracle ever makes it return success), and a
run with budget for 4 frames appends 4 frames whose `more` bits are
`true, true, false, true` instead of the claimed `true, true, false`. -/
theorem queue_data_len70_diverges :
    (∀ allocs : List (Bool × Bool), ∀ fifo : List slice_spi_msg,
      (queue_data_loop (List.replicate 70 1) 70 allocs 70 fifo).1 ≠ 0) ∧
    (queue_data 128 (List.replicate 4 (true, true)) (initState 128)
      (List.replicate 70 1) 70).1 = -ENOMEM ∧
    ((queue_data 128 (List.replicate 4 (true, true)) (initState 128)
      (List.replicate 70 1) 70).2.tx_fifo.map msg_more) = [true, true, false, true] := by
  refine ⟨fun allocs fifo => ?_, by decide, by decide⟩
  exact queue_data_loop_never_zero (List.replicate 70 1) 70 (by omega) allocs 70 fifo
    (by omega)

/-- C4 counterexample: an allocation failure while fragmenting the second
frame of a 64-byte message returns `-ENOMEM` but leaves the first frame
enqueued — the queue is NOT untouched, contradicting the claim. -/
theorem queue_data_enomem_partial_enqueue :
    (queue_data 64 [(true, true), (true, false)] (initState 64)
      (List.range 64) 64).1 = -ENOMEM ∧
    (queue_data 64 [(true, true), (true, false)] (initState 64)
      (List.range 64) 64).2.tx_fifo ≠ (initState 64).tx_fifo := by
  refine ⟨by decide, by decide⟩

/-- C4 amended: `queue_data` returns `-E2BIG` exactly when `len > maxSz`,
with the whole state untouched; any other error return is `-ENOMEM`, and
then the queue consists of the old queue with the frames fragmented before
the failure appended after it (a partial enqueue is possible). -/
theorem queue_data_error_paths (maxSz : Nat) (allocs : List (Bool × Bool))
    (s : slice_spi_dl_s) (buf : List Nat) (len : Nat) :
    (maxSz < len → queue_data maxSz allocs s buf len = (-E2BIG, s)) ∧
    (len ≤ maxSz → (queue_data maxSz allocs s buf len).1 ≠ 0 →
      (queue_data maxSz allocs s buf len).1 = -ENOMEM ∧
      ∃ extra, (queue_data maxSz allocs s buf len).2 =
        { s with tx_fifo := s.tx_fifo ++ extra }) := by
  constructor
  · intro h
    unfold queue_data
    rw [if_pos h]
  · intro hle hne
    unfold queue_data at hne ⊢
    rw [if_neg (by omega)] at hne ⊢
    rcases queue_data_loop_result buf len allocs len s.tx_fifo with h0 | h0
    · rw [if_pos h0] at hne
      exact absurd rfl hne
    · have hne0 : ¬ (queue_data_loop buf len allocs len s.tx_fifo).1 = 0 := by
        rw [h0]; norm_num [ENOMEM]
      rw [if_neg hne0] at hne ⊢
      obtain ⟨extra, hextra⟩ := queue_data_loop_extends buf len allocs len s.tx_fifo
      exact ⟨h0, extra, by rw [hextra]⟩

/-- C4 witness: the amended theorem applied at a concrete oversized send and
at a concrete allocation failure. -/
theorem queue_data_error_paths_witness :
    (64 < 100 ∧ queue_data 64 [] (initState 64) [] 100 = (-E2BIG, initState 64)) ∧
    ((64:Nat) ≤ 64 ∧ (queue_data 64 [(true, true), (true, false)] (initState 64)
        (List.range 64) 64).1 ≠ 0 ∧
      (queue_data 64 [(true, true), (true, false)] (initState 64)
        (List.range 64) 64).1 = -ENOMEM ∧
      ∃ extra, (queue_data 64 [(true, true), (true, false)] (initState 64)
        (List.range 64) 64).2 =
        { initState 64 with tx_fifo := (initState 64).tx_fifo ++ extra }) := by
  refine ⟨⟨by decide, (queue_data_error_paths 64 [] (initState 64) [] 100).1 (by decide)⟩,
    ⟨by decide, by decide, (queue_data_error_paths 64 [(true, true), (true, false)]
      (initState 64) (List.range 64) 64).2 (by decide) (by decide)⟩⟩

/-- C9 counterexample: a `queue_data` call with `len = 0` does return 0 and
enqueues nothing, but it still falls through to `setup_exchange`; from a
state with a queued frame, the ready line high and wake asserted, that
trailing `setup_exchange` dequeues the pending frame, so the outbound queue
is NOT left unchanged. -/
theorem zero_len_queue_changed_counterexample :
    (queue_data 64 []
      { (queue_data 64 [(true, true)] (initState 64) [7] 1).2 with wake_n := false }
      [] 0).1 = 0 ∧
    (queue_data 64 []
      { (queue_data 64 [(true, true)] (initState 64) [7] 1).2 with wake_n := false }
      [] 0).2.tx_fifo ≠
    ({ (queue_data 64 [(true, true)] (initState 64) [7] 1).2 with
       wake_n := false } : slice_spi_dl_s).tx_fifo := by
  refine ⟨by decide, by decide⟩

/-- C9 amended: a `queue_data` call with `len = 0` returns success and
appends no frame; its entire effect is the trailing opportunistic
`setup_exchange` (which may dequeue an already-pending frame to start an
exchange). -/
theorem queue_data_zero_len_noop (maxSz : Nat) (allocs : List (Bool × Bool))
    (s : slice_spi_dl_s) (buf : List Nat) :
    queue_data maxSz allocs s buf 0 = (0, setup_exchange s) := by
  unfold queue_data
  rw [if_neg (by omega), queue_data_loop_zero_rem]
  rfl

/-! ### Claim theorems: reassembly after overflow (C6) and signals (C7, C8) -/

/-- C6 counterexample: with `maxSz = 64`, three frames overflow the buffer;
the third frame has `more = false`, yet the cursor is NOT reset (it stays at
64), and a subsequent well-formed single-frame message is not delivered
either — the claimed "reset on `more == false`, next message delivered
normally" behaviour does not happen. -/
theorem overflow_no_reset_counterexample :
    (runFrames 64 (initState 64)
      [mkFrame true 1, mkFrame true 2, mkFrame false 3]).1.rcvd_payload_idx ≠ 0 ∧
    (runFrames 64 (initState 64)
      [mkFrame true 1, mkFrame true 2, mkFrame false 3, mkFrame false 9]).2 = [] := by
  refine ⟨by decide, by decide⟩

/-- C6 amended: once the reassembly cursor has reached the capacity, every
further valid frame — including one with `more == false` — is dropped by the
`Too many packets received` guard without resetting the buffer or cursor and
without delivering anything; the reassembler never returns to the empty
state. -/
theorem overflow_never_resets (maxSz : Nat) (s : slice_spi_dl_s)
    (m : slice_spi_msg) (hv : msg_valid m = true)
    (ho : maxSz ≤ s.rcvd_payload_idx) :
    (txn_finished_cb maxSz s m).2 = none ∧
    (txn_finished_cb maxSz s m).1.rcvd_payload_idx = s.rcvd_payload_idx ∧
    (txn_finished_cb maxSz s m).1.rcvd_payload = s.rcvd_payload := by
  unfold txn_finished_cb
  rw [if_neg (by simp [hv]), if_pos ho]
  exact ⟨rfl, setup_exchange_rcvd_idx _, setup_exchange_rcvd_payload _⟩

/-- C6 witness: the amended theorem applied to a concrete overflowed state
receiving a concrete `more = false` frame. -/
theorem overflow_never_resets_witness :
    (msg_valid (mkFrame false 5) = true ∧
      (32:Nat) ≤ ({ initState 32 with rcvd_payload_idx := 32 } :
        slice_spi_dl_s).rcvd_payload_idx) ∧
    ((txn_finished_cb 32 { initState 32 with rcvd_payload_idx := 32 }
        (mkFrame false 5)).2 = none ∧
      (txn_finished_cb 32 { initState 32 with rcvd_payload_idx := 32 }
        (mkFrame false 5)).1.rcvd_payload_idx =
        ({ initState 32 with rcvd_payload_idx := 32 } :
          slice_spi_dl_s).rcvd_payload_idx ∧
      (txn_finished_cb 32 { initState 32 with rcvd_payload_idx := 32 }
        (mkFrame false 5)).1.rcvd_payload =
        ({ initState 32 with rcvd_payload_idx := 32 } :
          slice_spi_dl_s).rcvd_payload) :=
  ⟨⟨by decide, by decide⟩,
    overflow_never_resets 32 { initState 32 with rcvd_payload_idx := 32 }
      (mkFrame false 5) (by decide) (by decide)⟩

/-- C7 counterexample: at the end of a `setup_exchange` call made while the
wake line is not asserted, the outbound queue is non-empty but
`slice_host_int_set` is passed `false` — the signal is computed from
`priv->tx_buf != NULL`, not from queue occupancy. -/
theorem host_int_not_queue_counterexample :
    (setup_exchange { initState 64 with tx_fifo := [mkFrame false 7] }).host_int
      = false ∧
    (setup_exchange { initState 64 with tx_fifo := [mkFrame false 7] }).tx_fifo
      ≠ [] := by
  refine ⟨by decide, by decide⟩

/-- C7 amended: at the end of every `setup_exchange` call, the value passed
to `slice_host_int_set` is `tx_buf != NULL`; in terms of the entry state it
is true iff a transmit frame was already held, or the call just armed an
exchange (ready line high, wake asserted) with a frame popped from a
non-empty queue. -/
theorem host_int_reflects_tx_buf (s : slice_spi_dl_s) :
    (setup_exchange s).host_int = (setup_exchange s).tx_buf.isSome ∧
    (setup_exchange s).host_int =
      (s.tx_buf.isSome || (s.rdy_n && !s.wake_n && !s.tx_fifo.isEmpty)) := by
  constructor
  · rfl
  · unfold setup_exchange setup_exchange_core
    rcases hrdy : s.rdy_n <;> rcases hwake : s.wake_n <;>
      rcases hfifo : s.tx_fifo with _ | ⟨f, rest⟩ <;>
      simp [hrdy, hwake, hfifo]

/-- C8 counterexample: reach a state whose reassembly cursor is 32 (one
accepted fragment of an unfinished message), then detach; `attach_cb` drains
the queue but leaves the cursor at 32, so the reassembler is NOT in the
empty initial state after the detach. -/
theorem attach_cursor_counterexample :
    (attach_cb
      (txn_finished_cb 64 (setup_exchange { initState 64 with wake_n := false })
        (mkFrame true 1)).1 false).rcvd_payload_idx = 32 ∧
    (attach_cb
      (txn_finished_cb 64 (setup_exchange { initState 64 with wake_n := false })
        (mkFrame true 1)).1 false).rcvd_payload_idx ≠ 0 := by
  refine ⟨by decide, by decide⟩

/-- C8 amended: `attach_cb` on detach empties the outbound queue and touches
nothing else — in particular the reassembly cursor keeps its pre-detach
value — and on attach it is the identity. -/
theorem attach_detach_state (s : slice_spi_dl_s) :
    (attach_cb s false).tx_fifo = [] ∧
    (attach_cb s false).rcvd_payload_idx = s.rcvd_payload_idx ∧
    (attach_cb s false).rcvd_payload = s.rcvd_payload ∧
    (attach_cb s false).tx_buf = s.tx_buf ∧
    attach_cb s true = s := by
  exact ⟨rfl, rfl, rfl, rfl, rfl⟩

/-! ### Claim theorems: scheduler mutual exclusion (C3) -/

/-- C3: in every reachable state in which an exchange is outstanding (the
ready line is held low from `SPI_EXCHANGE` until the completion callback), a
further `setup_exchange` call starts no second exchange (the `SPI_EXCHANGE`
count is unchanged) and modifies neither the queue nor the transfer state:
the `Already setup to tranceive packet` guard returns immediately. -/
theorem setup_exchange_busy_noop (maxSz : Nat) (s : slice_spi_dl_s)
    (hreach : Reachable maxSz s) (hbusy : s.rdy_n = false) :
    (setup_exchange s).tx_fifo = s.tx_fifo ∧
    (setup_exchange s).tx_buf = s.tx_buf ∧
    (setup_exchange s).exch_count = s.exch_count ∧
    (setup_exchange s).rdy_n = s.rdy_n ∧
    (setup_exchange s).rcvd_payload = s.rcvd_payload ∧
    (setup_exchange s).rcvd_payload_idx = s.rcvd_payload_idx := by
  rw [setup_exchange_busy s hbusy]
  exact ⟨rfl, rfl, rfl, rfl, rfl, rfl⟩

/-- The concrete busy state used in the C3 witness: reached from the initial
state by the base asserting wake and the wake interrupt arming an
exchange. -/
def busyState : slice_spi_dl_s :=
  setup_exchange { initState 64 with wake_n := false }

/-- C3 witness: `busyState` is reachable, has the ready line asserted, and
the theorem applies to it. -/
theorem setup_exchange_busy_noop_witness :
    Reachable 64 busyState ∧ busyState.rdy_n = false ∧
    ((setup_exchange busyState).tx_fifo = busyState.tx_fifo ∧
     (setup_exchange busyState).tx_buf = busyState.tx_buf ∧
     (setup_exchange busyState).exch_count = busyState.exch_count ∧
     (setup_exchange busyState).rdy_n = busyState.rdy_n ∧
     (setup_exchange busyState).rcvd_payload = busyState.rcvd_payload ∧
     (setup_exchange busyState).rcvd_payload_idx = busyState.rcvd_payload_idx) := by
  have h1 : Step 64 (initState 64) { initState 64 with wake_n := false } :=
    Step.wake_line (initState 64) false
  have h2 : Step 64 { initState 64 with wake_n := false } busyState :=
    Step.wake_isr { initState 64 with wake_n := false }
  have hreach : Reachable 64 busyState :=
    Relation.ReflTransGen.tail (Relation.ReflTransGen.single h1) h2
  exact ⟨hreach, by decide, setup_exchange_busy_noop 64 busyState hreach (by decide)⟩

/-! ### Claim theorems: cursor alignment invariant (C10) -/

theorem txn_finished_cb_idx_cases (maxSz : Nat) (s : slice_spi_dl_s)
    (m : slice_spi_msg) :
    (txn_finished_cb maxSz s m).1.rcvd_payload_idx = s.rcvd_payload_idx ∨
    (s.rcvd_payload_idx < maxSz ∧
      (txn_finished_cb maxSz s m).1.rcvd_payload_idx =
        s.rcvd_payload_idx + SLICE_SPI_MSG_PAYLOAD_SZ) ∨
    (txn_finished_cb maxSz s m).1.rcvd_payload_idx = 0 := by
  unfold txn_finished_cb
  by_cases hv : msg_valid m = false
  · rw [if_pos hv]
    exact Or.inl (setup_exchange_rcvd_idx _)
  rw [if_neg hv]
  by_cases hov : maxSz ≤ s.rcvd_payload_idx
  · rw [if_pos hov]
    exact Or.inl (setup_exchange_rcvd_idx _)
  rw [if_neg hov]
  by_cases hm : msg_more m = true
  · rw [if_pos hm]
    exact Or.inr (Or.inl ⟨by omega, setup_exchange_rcvd_idx _⟩)
  · rw [if_neg hm]
    exact Or.inr (Or.inr (setup_exchange_rcvd_idx _))

/-- C10: in every reachable state — in particular after initialization and
after every `txn_finished_cb` invocation — the reassembly cursor
`rcvd_payload_idx` is a multiple of `SLICE_SPI_MSG_PAYLOAD_SZ`, and provided
`SLICE_DL_PAYLOAD_MAX_SZ` is itself a multiple of 32, the cursor never
exceeds it. -/
theorem rcvd_idx_aligned_invariant (maxSz : Nat) (s : slice_spi_dl_s)
    (hreach : Reachable maxSz s) :
    SLICE_SPI_MSG_PAYLOAD_SZ ∣ s.rcvd_payload_idx ∧
    (SLICE_SPI_MSG_PAYLOAD_SZ ∣ maxSz → s.rcvd_payload_idx ≤ maxSz) := by
  unfold Reachable at hreach
  induction hreach with
  | refl => exact ⟨dvd_zero _, fun _ => Nat.zero_le _⟩
  | @tail b c hab hbc ih =>
    cases hbc with
    | wake_line bit => exact ih
    | wake_isr =>
      rw [setup_exchange_rcvd_idx]
      exact ih
    | send allocs buf len =>
      rw [queue_data_rcvd_idx]
      exact ih
    | txn m hr hm =>
      rcases txn_finished_cb_idx_cases maxSz b m with h | ⟨hlt, h⟩ | h <;> rw [h]
      · exact ih
      · refine ⟨dvd_add ih.1 dvd_rfl, fun hdvd => ?_⟩
        have h1 := ih.1
        simp only [SLICE_SPI_MSG_PAYLOAD_SZ] at h1 hdvd ⊢
        omega
      · exact ⟨dvd_zero _, fun _ => Nat.zero_le _⟩
    | attach bit =>
      rw [attach_cb_rcvd_idx]
      exact ih

/-- C10 witness: the invariant applied to the (trivially reachable) initial
state with capacity 64. -/
theorem rcvd_idx_aligned_invariant_witness :
    Reachable 64 (initState 64) ∧
    (SLICE_SPI_MSG_PAYLOAD_SZ ∣ (initState 64).rcvd_payload_idx ∧
     (SLICE_SPI_MSG_PAYLOAD_SZ ∣ 64 → (initState 64).rcvd_payload_idx ≤ 64)) :=
  ⟨Relation.ReflTransGen.refl,
    rcvd_idx_aligned_invariant 64 (initState 64) Relation.ReflTransGen.refl⟩

/-! ### Claim theorems: reassembly memory safety (C5) -/

/-- The reassembly-buffer invariant: an aligned cursor within capacity and a
buffer of exactly the capacity's length (in the list model an out-of-bounds
`memcpy` would change the length). -/
def reasmInv (maxSz : Nat) (s : slice_spi_dl_s) : Prop :=
  SLICE_SPI_MSG_PAYLOAD_SZ ∣ s.rcvd_payload_idx ∧
  s.rcvd_payload_idx ≤ maxSz ∧
  s.rcvd_payload.length = maxSz

theorem writeAt_length (buf : List Nat) (idx : Nat) (d : List Nat)
    (h : idx + d.length ≤ buf.length) :
    (writeAt buf idx d).length = buf.length := by
  unfold writeAt
  simp only [List.length_append, List.length_take, List.length_drop]
  omega

theorem memset32_length (buf : List Nat)
    (h : SLICE_SPI_MSG_PAYLOAD_SZ ≤ buf.length) :
    (memset32 buf).length = buf.length := by
  unfold memset32
  simp only [List.length_append, List.length_replicate, List.length_drop]
  simp only [SLICE_SPI_MSG_PAYLOAD_SZ] at h ⊢
  omega

theorem reasmInv_setup (maxSz : Nat) (s : slice_spi_dl_s)
    (h : reasmInv maxSz s) : reasmInv maxSz (setup_exchange s) := by
  unfold reasmInv at h ⊢
  rw [setup_exchange_rcvd_idx, setup_exchange_rcvd_payload]
  exact h

theorem txn_finished_cb_inv (maxSz : Nat) (s : slice_spi_dl_s)
    (m : slice_spi_msg) (hdvd : SLICE_SPI_MSG_PAYLOAD_SZ ∣ maxSz)
    (hm : m.data.length = SLICE_SPI_MSG_PAYLOAD_SZ)
    (hinv : reasmInv maxSz s) :
    reasmInv maxSz (txn_finished_cb maxSz s m).1 := by
  obtain ⟨h1, h2, h3⟩ := hinv
  unfold txn_finished_cb
  by_cases hv : msg_valid m = false
  · rw [if_pos hv]
    exact reasmInv_setup _ _ ⟨h1, h2, h3⟩
  rw [if_neg hv]
  by_cases hov : maxSz ≤ s.rcvd_payload_idx
  · rw [if_pos hov]
    exact reasmInv_setup _ _ ⟨h1, h2, h3⟩
  rw [if_neg hov]
  have hidx : s.rcvd_payload_idx + SLICE_SPI_MSG_PAYLOAD_SZ ≤ maxSz := by
    simp only [SLICE_SPI_MSG_PAYLOAD_SZ] at h1 hdvd ⊢
    omega
  have hwlen : (writeAt s.rcvd_payload s.rcvd_payload_idx m.data).length = maxSz := by
    rw [writeAt_length _ _ _ (by rw [hm, h3]; exact hidx)]
    exact h3
  have haccept : reasmInv maxSz (txn_accept (txn_start s) m) :=
    ⟨dvd_add h1 dvd_rfl, hidx, hwlen⟩
  by_cases hmore : msg_more m = true
  · rw [if_pos hmore]
    exact reasmInv_setup _ _ haccept
  · rw [if_neg hmore]
    refine reasmInv_setup _ _ ⟨dvd_zero _, Nat.zero_le _, ?_⟩
    show (memset32 (writeAt s.rcvd_payload s.rcvd_payload_idx m.data)).length = maxSz
    rw [memset32_length, hwlen]
    rw [hwlen]
    simp only [SLICE_SPI_MSG_PAYLOAD_SZ] at hdvd ⊢
    omega

theorem runFrames_inv (maxSz : Nat) (fs : List slice_spi_msg) :
    ∀ s : slice_spi_dl_s, SLICE_SPI_MSG_PAYLOAD_SZ ∣ maxSz →
      (∀ f ∈ fs, f.data.length = SLICE_SPI_MSG_PAYLOAD_SZ) →
      reasmInv maxSz s → reasmInv maxSz (runFrames maxSz s fs).1 := by
  induction fs with
  | nil =>
    intro s _ _ h
    exact h
  | cons f fs ih =>
    intro s hdvd hlen h
    exact ih (txn_finished_cb maxSz s f).1 hdvd
      (fun g hg => hlen g (List.mem_cons_of_mem f hg))
      (txn_finished_cb_inv maxSz s f hdvd (hlen f (List.mem_cons_self f fs)) h)

theorem runFrames_append (maxSz : Nat) (xs ys : List slice_spi_msg) :
    ∀ s : slice_spi_dl_s,
      runFrames maxSz s (xs ++ ys) =
        ((runFrames maxSz (runFrames maxSz s xs).1 ys).1,
         (runFrames maxSz s xs).2 ++
           (runFrames maxSz (runFrames maxSz s xs).1 ys).2) := by
  induction xs with
  | nil =>
    intro s
    simp [runFrames]
  | cons x xs ih =>
    intro s
    simp only [List.cons_append, runFrames, List.append_eq, ih, List.append_assoc]

theorem runFrames_more_pending (maxSz : Nat)
    (hdvd : SLICE_SPI_MSG_PAYLOAD_SZ ∣ maxSz) (fs : List slice_spi_msg) :
    ∀ s : slice_spi_dl_s,
      (∀ f ∈ fs, msg_valid f = true ∧ msg_more f = true) →
      SLICE_SPI_MSG_PAYLOAD_SZ ∣ s.rcvd_payload_idx →
      s.rcvd_payload_idx ≤ maxSz →
      (runFrames maxSz s fs).2 = [] ∧
      (runFrames maxSz s fs).1.rcvd_payload_idx =
        min (s.rcvd_payload_idx + SLICE_SPI_MSG_PAYLOAD_SZ * fs.length) maxSz := by
  induction fs with
  | nil =>
    intro s _ _ hle
    refine ⟨rfl, ?_⟩
    show s.rcvd_payload_idx = _
    simp only [List.length_nil, SLICE_SPI_MSG_PAYLOAD_SZ]
    omega
  | cons f fs ih =>
    intro s hall hidxdvd hle
    obtain ⟨hv, hm⟩ := hall f (List.mem_cons_self f fs)
    by_cases hov : maxSz ≤ s.rcvd_payload_idx
    · have htxn : txn_finished_cb maxSz s f = (setup_exchange (txn_start s), none) := by
        unfold txn_finished_cb
        rw [if_neg (by simp [hv]), if_pos hov]
      have hidx' : (setup_exchange (txn_start s)).rcvd_payload_idx
          = s.rcvd_payload_idx := setup_exchange_rcvd_idx _
      obtain ⟨ihd, ihx⟩ := ih (setup_exchange (txn_start s))
        (fun g hg => hall g (List.mem_cons_of_mem f hg))
        (by rw [hidx']; exact hidxdvd) (by rw [hidx']; exact hle)
      simp only [runFrames, htxn]
      refine ⟨by rw [ihd]; rfl, ?_⟩
      rw [ihx, hidx']
      simp only [List.length_cons, SLICE_SPI_MSG_PAYLOAD_SZ] at hov hle ⊢
      omega
    · have htxn : txn_finished_cb maxSz s f
          = (setup_exchange (txn_accept (txn_start s) f), none) := by
        unfold txn_finished_cb
        rw [if_neg (by simp [hv]), if_neg hov, if_pos hm]
      have hidx' : (setup_exchange (txn_accept (txn_start s) f)).rcvd_payload_idx
          = s.rcvd_payload_idx + SLICE_SPI_MSG_PAYLOAD_SZ := setup_exchange_rcvd_idx _
      have hle' : s.rcvd_payload_idx + SLICE_SPI_MSG_PAYLOAD_SZ ≤ maxSz := by
        simp only [SLICE_SPI_MSG_PAYLOAD_SZ] at hidxdvd hdvd ⊢
        omega
      obtain ⟨ihd, ihx⟩ := ih (setup_exchange (txn_accept (txn_start s) f))
        (fun g hg => hall g (List.mem_cons_of_mem f hg))
        (by rw [hidx']; exact dvd_add hidxdvd dvd_rfl) (by rw [hidx']; exact hle')
      simp only [runFrames, htxn]
      refine ⟨by rw [ihd]; rfl, ?_⟩
      rw [ihx, hidx']
      simp only [List.length_cons, SLICE_SPI_MSG_PAYLOAD_SZ]
      omega

/-- C5: a single fragmented message whose total payload exceeds the
capacity (`valid` on every frame, `more = true` on all but the last, and
`32 * frame count > maxSz`, with the capacity a multiple of the packet
payload size as in the source configuration) is never delivered upward, and
at no point does the reassembler write past the buffer bound: the cursor
stays within the capacity and the buffer keeps its exact length after every
prefix of the frame sequence. -/
theorem reassembly_overflow_safe (maxSz : Nat) (body : List slice_spi_msg)
    (lastf : slice_spi_msg) (hdvd : SLICE_SPI_MSG_PAYLOAD_SZ ∣ maxSz)
    (hbody : ∀ f ∈ body, msg_valid f = true ∧ msg_more f = true ∧
      f.data.length = SLICE_SPI_MSG_PAYLOAD_SZ)
    (hlv : msg_valid lastf = true) (hlm : msg_more lastf = false)
    (hld : lastf.data.length = SLICE_SPI_MSG_PAYLOAD_SZ)
    (hover : maxSz < SLICE_SPI_MSG_PAYLOAD_SZ * (body.length + 1)) :
    (runFrames maxSz (initState maxSz) (body ++ [lastf])).2 = [] ∧
    (∀ n : Nat,
      (runFrames maxSz (initState maxSz)
        ((body ++ [lastf]).take n)).1.rcvd_payload_idx ≤ maxSz ∧
      (runFrames maxSz (initState maxSz)
        ((body ++ [lastf]).take n)).1.rcvd_payload.length = maxSz) := by
  have hinit : reasmInv maxSz (initState maxSz) :=
    ⟨dvd_zero _, Nat.zero_le _, by simp [initState]⟩
  constructor
  · rw [runFrames_append maxSz body [lastf] (initState maxSz)]
    obtain ⟨hd, hx⟩ := runFrames_more_pending maxSz hdvd body (initState maxSz)
      (fun f hf => ⟨(hbody f hf).1, (hbody f hf).2.1⟩) (dvd_zero _) (Nat.zero_le _)
    have hbodyidx : (runFrames maxSz (initState maxSz) body).1.rcvd_payload_idx
        = maxSz := by
      rw [hx]
      show min (0 + SLICE_SPI_MSG_PAYLOAD_SZ * body.length) maxSz = maxSz
      simp only [SLICE_SPI_MSG_PAYLOAD_SZ] at hdvd hover ⊢
      omega
    have htxn : txn_finished_cb maxSz (runFrames maxSz (initState maxSz) body).1 lastf
        = (setup_exchange (txn_start (runFrames maxSz (initState maxSz) body).1),
           none) := by
      unfold txn_finished_cb
      rw [if_neg (by simp [hlv]), if_pos (by rw [hbodyidx])]
    simp only [runFrames, htxn, hd]
    rfl
  · intro n
    have hmem : ∀ f ∈ (body ++ [lastf]).take n,
        f.data.length = SLICE_SPI_MSG_PAYLOAD_SZ := by
      intro f hf
      rcases List.mem_append.mp (List.take_subset n _ hf) with h | h
      · exact (hbody f h).2.2
      · rw [List.mem_singleton.mp h]
        exact hld
    have hrun := runFrames_inv maxSz ((body ++ [lastf]).take n) (initState maxSz)
      hdvd hmem hinit
    exact ⟨hrun.2.1, hrun.2.2⟩

/-- C5 witness: a two-fragment message against capacity 32. -/
theorem reassembly_overflow_safe_witness :
    (SLICE_SPI_MSG_PAYLOAD_SZ ∣ 32 ∧
     32 < SLICE_SPI_MSG_PAYLOAD_SZ * ([mkFrame true 1].length + 1)) ∧
    ((runFrames 32 (initState 32) ([mkFrame true 1] ++ [mkFrame false 2])).2 = [] ∧
     (∀ n : Nat,
       (runFrames 32 (initState 32)
         (([mkFrame true 1] ++ [mkFrame false 2]).take n)).1.rcvd_payload_idx ≤ 32 ∧
       (runFrames 32 (initState 32)
         (([mkFrame true 1] ++ [mkFrame false 2]).take n)).1.rcvd_payload.length = 32)) :=
  ⟨⟨by decide, by decide⟩,
    reassembly_overflow_safe 32 [mkFrame true 1] (mkFrame false 2) (by decide)
      (by decide) (by decide) (by decide) (by decide) (by decide)⟩

end SliceSpi
